import Mathlib

/-!
Verification development for the PromptSensei completion engine
(src/firefox/content.js). JavaScript strings are modelled as `List Char`;
each definition is a shallow embedding of the corresponding source
function, with the JS string primitives (`substring`, `lastIndexOf`,
`startsWith`, `includes`, `split`, `trim`, `toLowerCase`) modelled
explicitly.
-/

namespace PromptSensei

/-- Whitespace test modelling the JavaScript regular-expression class \s
(ASCII whitespace plus the Unicode space code points). -/
def isJsWs (c : Char) : Bool :=
  c == ' ' || c == '\t' || c == '\n' || c == '\r' ||
  c == Char.ofNat 11 || c == Char.ofNat 12 ||
  c == Char.ofNat 160 || c == Char.ofNat 0x1680 ||
  (0x2000 ≤ c.toNat && c.toNat ≤ 0x200a) ||
  c == Char.ofNat 0x2028 || c == Char.ofNat 0x2029 ||
  c == Char.ofNat 0x202f || c == Char.ofNat 0x205f ||
  c == Char.ofNat 0x3000 || c == Char.ofNat 0xfeff

/-- Model of JavaScript `toLowerCase` (ASCII case folding). -/
def jsToLower (s : List Char) : List Char :=
  s.map Char.toLower

/-- Model of JavaScript `trim`: strip leading and trailing whitespace. -/
def jsTrim (s : List Char) : List Char :=
  ((s.dropWhile isJsWs).reverse.dropWhile isJsWs).reverse

/-- The string `t` occurs in `s` starting at index `i`. -/
def OccursAt (s t : List Char) (i : Nat) : Prop :=
  (s.drop i).take t.length = t

instance (s t : List Char) (i : Nat) : Decidable (OccursAt s t i) := by
  unfold OccursAt; infer_instance

/-- Search downward from index `n` for the last occurrence of `t` in `s`. -/
def lastIndexOfAux (s t : List Char) : Nat → Option Nat
  | 0 => if OccursAt s t 0 then some 0 else none
  | n + 1 => if OccursAt s t (n + 1) then some (n + 1) else lastIndexOfAux s t n

/-- Model of JavaScript `String.prototype.lastIndexOf`: the greatest start
index of an occurrence of `t` in `s` (searching start positions `0..s.length`),
or `none` when `t` does not occur. -/
def lastIndexOf (s t : List Char) : Option Nat :=
  lastIndexOfAux s t s.length

theorem occursAt_add_length_le (s t : List Char) (i : Nat)
    (ht : t ≠ []) (h : OccursAt s t i) : i + t.length ≤ s.length := by
  unfold OccursAt at h
  have hlen : ((s.drop i).take t.length).length = t.length := by rw [h]
  simp only [List.length_take, List.length_drop] at hlen
  have htpos : 0 < t.length := List.length_pos.mpr ht
  omega

theorem lastIndexOfAux_eq_some (s t : List Char) (n i : Nat) :
    lastIndexOfAux s t n = some i ↔
      (i ≤ n ∧ OccursAt s t i ∧ ∀ j, i < j → j ≤ n → ¬ OccursAt s t j) := by
  induction n with
  | zero =>
    by_cases h : OccursAt s t 0
    · simp only [lastIndexOfAux, h, if_pos]
      constructor
      · rintro ⟨rfl⟩
        exact ⟨le_refl 0, h, fun j hj hj0 => by omega⟩
      · rintro ⟨hi, _, _⟩
        have : i = 0 := Nat.le_zero.mp hi
        simp [this]
    · simp only [lastIndexOfAux, h, if_neg, if_false]
      constructor
      · intro hc; exact absurd hc (by simp)
      · rintro ⟨hi, hocc, _⟩
        have : i = 0 := Nat.le_zero.mp hi
        subst this
        exact absurd hocc h
  | succ n ih =>
    by_cases h : OccursAt s t (n + 1)
    · simp only [lastIndexOfAux, h, if_pos]
      constructor
      · rintro ⟨rfl⟩
        exact ⟨le_refl _, h, fun j hj hj' => by omega⟩
      · rintro ⟨hi, hocc, hmax⟩
        rcases Nat.lt_or_ge i (n + 1) with hlt | hge
        · exact absurd h (hmax (n + 1) hlt (le_refl _))
        · have : i = n + 1 := le_antisymm hi hge
          simp [this]
    · simp only [lastIndexOfAux, h, if_neg, if_false]
      rw [ih]
      constructor
      · rintro ⟨hi, hocc, hmax⟩
        refine ⟨by omega, hocc, fun j hj hj' => ?_⟩
        rcases Nat.lt_or_ge n j with hlt | hge
        · have : j = n + 1 := by omega
          subst this
          exact h
        · exact hmax j hj hge
      · rintro ⟨hi, hocc, hmax⟩
        have hin : i ≤ n := by
          rcases Nat.lt_or_ge i (n + 1) with hlt | hge
          · omega
          · have : i = n + 1 := by omega
            subst this
            exact absurd hocc h
        exact ⟨hin, hocc, fun j hj hj' => hmax j hj (by omega)⟩

theorem lastIndexOf_eq_some (s t : List Char) (ht : t ≠ []) (i : Nat) :
    lastIndexOf s t = some i ↔
      (OccursAt s t i ∧ ∀ j, i < j → ¬ OccursAt s t j) := by
  unfold lastIndexOf
  rw [lastIndexOfAux_eq_some]
  constructor
  · rintro ⟨_, hocc, hmax⟩
    refine ⟨hocc, fun j hj hjo => ?_⟩
    have hb := occursAt_add_length_le s t j ht hjo
    exact hmax j hj (by omega) hjo
  · rintro ⟨hocc, hmax⟩
    have hb := occursAt_add_length_le s t i ht hocc
    exact ⟨by omega, hocc, fun j hj _ => hmax j hj⟩

theorem lastIndexOfAux_eq_none (s t : List Char) (n : Nat) :
    lastIndexOfAux s t n = none ↔ ∀ j, j ≤ n → ¬ OccursAt s t j := by
  induction n with
  | zero =>
    by_cases h : OccursAt s t 0
    · simp only [lastIndexOfAux, h, if_pos]
      constructor
      · intro hc; exact absurd hc (by simp)
      · intro hall
        exact absurd h (hall 0 (le_refl _))
    · simp only [lastIndexOfAux, h, if_neg, if_false]
      constructor
      · intro _ j hj hocc
        have : j = 0 := Nat.le_zero.mp hj
        subst this
        exact absurd hocc h
      · intro _; trivial
  | succ n ih =>
    by_cases h : OccursAt s t (n + 1)
    · simp only [lastIndexOfAux, h, if_pos]
      constructor
      · intro hc; exact absurd hc (by simp)
      · intro hall
        exact absurd h (hall (n + 1) (le_refl _))
    · simp only [lastIndexOfAux, h, if_neg, if_false]
      rw [ih]
      constructor
      · intro hall j hj hocc
        rcases Nat.lt_or_ge n j with hlt | hge
        · have : j = n + 1 := by omega
          subst this
          exact absurd hocc h
        · exact hall j hge hocc
      · intro hall j hj
        exact hall j (by omega)

theorem lastIndexOf_eq_none (s t : List Char) :
    lastIndexOf s t = none ↔ ∀ j, j ≤ s.length → ¬ OccursAt s t j := by
  unfold lastIndexOf
  exact lastIndexOfAux_eq_none s t s.length

/-- Model of `AIPromptAutocomplete.checkTextTrigger` (content.js lines
1360-1378). Returns the start offset passed to `activateDropdownMode`
on success, `none` when no activation happens. The early return for a
falsy (empty) trigger, the `lastIndexOf` over `value.substring(0,
cursorPos)`, the word-boundary test and the cursor-position test are
modelled verbatim. -/
def checkTextTrigger (text : List Char) (cursorPos : Nat) (trigger : List Char) :
    Option Nat :=
  if trigger.isEmpty then none
  else
    let beforeCursor := text.take cursorPos
    match lastIndexOf beforeCursor trigger with
    | none => none
    | some triggerIndex =>
      let isValidTrigger : Bool := triggerIndex == 0 ||
        (match beforeCursor[triggerIndex - 1]? with
         | some c => isJsWs c
         | none => false)
      let cursorAfterTrigger : Bool := decide (triggerIndex + trigger.length ≤ cursorPos)
      if isValidTrigger && cursorAfterTrigger then some triggerIndex else none

/-- Specification-side description of a valid text-trigger match: `i` is the
start of the last occurrence of the trigger in `text[0:cursorOffset]`, the
occurrence is preceded by start-of-string or whitespace, and it ends at or
before the cursor. -/
def TriggerMatchAt (text : List Char) (cursorPos : Nat) (trigger : List Char)
    (i : Nat) : Prop :=
  OccursAt (text.take cursorPos) trigger i ∧
  (∀ j, i < j → ¬ OccursAt (text.take cursorPos) trigger j) ∧
  (i = 0 ∨ ∃ c, text[i - 1]? = some c ∧ isJsWs c = true) ∧
  i + trigger.length ≤ cursorPos

/-- C1: for every text, cursor offset and non-empty trigger,
`checkTextTrigger` returns a match exactly when the last occurrence of the
trigger in `text[0:cursorOffset]` is preceded by start-of-string or
whitespace and ends at or before the cursor; on success it returns that
start offset of that occurrence; and an empty trigger never matches. -/
theorem checkTextTrigger_characterization
    (text : List Char) (cursorPos : Nat) (trigger : List Char) :
    checkTextTrigger text cursorPos [] = none ∧
    (trigger ≠ [] → ∀ i : Nat,
      (checkTextTrigger text cursorPos trigger = some i ↔
        TriggerMatchAt text cursorPos trigger i)) := by
  constructor
  · simp [checkTextTrigger]
  · intro ht i
    have hte : trigger.isEmpty = false := by
      cases trigger with
      | nil => exact absurd rfl ht
      | cons a l => rfl
    unfold checkTextTrigger
    simp only [hte, Bool.false_eq_true, if_false]
    cases hli : lastIndexOf (text.take cursorPos) trigger with
    | none =>
      simp only []
      constructor
      · intro hc; exact absurd hc (by simp)
      · rintro ⟨hocc, _, _, _⟩
        have hnone := (lastIndexOf_eq_none (text.take cursorPos) trigger).mp hli
        have hb := occursAt_add_length_le _ _ i ht hocc
        have htpos : 0 < trigger.length := List.length_pos.mpr ht
        exact absurd hocc (hnone i (by omega))
    | some k =>
      have hk := (lastIndexOf_eq_some (text.take cursorPos) trigger ht k).mp hli
      have hkb := occursAt_add_length_le _ _ k ht hk.1
      have hkcur : k + trigger.length ≤ cursorPos := by
        have : (text.take cursorPos).length = min cursorPos text.length := by
          simp [List.length_take]
        omega
      have hws : (k ≠ 0 ∧ 1 ≤ k) → (text.take cursorPos)[k - 1]? = text[k - 1]? := by
        rintro ⟨_, hk1⟩
        apply List.getElem?_take_of_lt
        omega
      simp only []
      by_cases hvalid :
          (k = 0 ∨ ∃ c, text[k - 1]? = some c ∧ isJsWs c = true)
      · have hbool : ((k == 0) ||
            (match (text.take cursorPos)[k - 1]? with
             | some c => isJsWs c
             | none => false)) = true := by
          rcases hvalid with h0 | ⟨c, hc, hcw⟩
          · simp [h0]
          · rcases Nat.eq_zero_or_pos k with h0 | hkpos
            · simp [h0]
            · rw [hws ⟨by omega, hkpos⟩, hc]
              simp [hcw]
        rw [hbool]
        simp only [Bool.true_and, hkcur, decide_eq_true_eq, if_pos, decide_True]
        constructor
        · rintro ⟨rfl⟩
          exact ⟨hk.1, hk.2, hvalid, hkcur⟩
        · rintro ⟨hocc, hmax, _, _⟩
          have hik : i = k := by
            rcases Nat.lt_trichotomy i k with hlt | heq | hgt
            · exact absurd hk.1 (hmax k hlt)
            · exact heq
            · exact absurd hocc (hk.2 i hgt)
          simp [hik]
      · have hbool : ((k == 0) ||
            (match (text.take cursorPos)[k - 1]? with
             | some c => isJsWs c
             | none => false)) = false := by
          rcases Nat.eq_zero_or_pos k with h0 | hkpos
          · exact absurd (Or.inl h0) hvalid
          · have hne : (k == 0) = false := by
              simp; omega
            rw [hne, hws ⟨by omega, hkpos⟩]
            simp only [Bool.false_or]
            cases hg : text[k - 1]? with
            | none => simp
            | some c =>
              cases hcw : isJsWs c with
              | true => exact absurd (Or.inr ⟨c, hg, hcw⟩) hvalid
              | false => simp [hcw]
        rw [hbool]
        simp only [Bool.false_and, Bool.false_eq_true, if_false]
        constructor
        · intro hc; exact absurd hc (by simp)
        · rintro ⟨hocc, hmax, hv, hcurs⟩
          have hik : i = k := by
            rcases Nat.lt_trichotomy i k with hlt | heq | hgt
            · exact absurd hk.1 (hmax k hlt)
            · exact heq
            · exact absurd hocc (hk.2 i hgt)
          subst hik
          exact absurd hv hvalid

/-- Closed-form instance of the C1 characterization at a concrete input. -/
theorem checkTextTrigger_characterization_witness :
    checkTextTrigger ("x AI: hi".toList) 6 ("AI:".toList) = some 2 ↔
      TriggerMatchAt ("x AI: hi".toList) 6 ("AI:".toList) 2 :=
  (checkTextTrigger_characterization ("x AI: hi".toList) 6 ("AI:".toList)).2
    (by decide) 2

/-- Model of JavaScript `String.prototype.startsWith`. -/
def jsStartsWith (s p : List Char) : Bool :=
  decide (s.take p.length = p)

/-- Model of JavaScript `String.prototype.includes`. -/
def jsIncludes (s p : List Char) : Bool :=
  (List.range (s.length + 1)).any (fun i => decide (OccursAt s p i))

theorem jsStartsWith_iff (s p : List Char) :
    jsStartsWith s p = true ↔ p <+: s := by
  rw [jsStartsWith, decide_eq_true_eq, List.prefix_iff_eq_take]
  constructor <;> (intro h; exact h.symm)

theorem occursAt_iff_prefix_drop (s p : List Char) (i : Nat) :
    OccursAt s p i ↔ p <+: s.drop i := by
  rw [OccursAt, List.prefix_iff_eq_take]
  constructor <;> (intro h; exact h.symm)

theorem jsIncludes_iff (s p : List Char) :
    jsIncludes s p = true ↔ p <:+: s := by
  rw [jsIncludes, List.any_eq_true]
  constructor
  · rintro ⟨i, _, hocc⟩
    rw [decide_eq_true_eq, occursAt_iff_prefix_drop] at hocc
    exact List.infix_iff_prefix_suffix.mpr ⟨s.drop i, hocc, List.drop_suffix i s⟩
  · intro h
    obtain ⟨u, v, rfl⟩ := h
    refine ⟨u.length, List.mem_range.mpr (by simp; omega), ?_⟩
    rw [decide_eq_true_eq, occursAt_iff_prefix_drop]
    rw [List.append_assoc, List.drop_left]
    exact ⟨v, rfl⟩

/-- Helper for `jsSplitWs`: returns the split fields of the list together
with a flag recording whether the list starts with a whitespace
character (so a preceding whitespace character extends the same
delimiter run instead of opening a new field boundary). -/
def jsSplitWsAux : List Char → List (List Char) × Bool
  | [] => ([[]], false)
  | c :: rest =>
    let r := jsSplitWsAux rest
    if isJsWs c then
      if r.2 then (r.1, true) else ([] :: r.1, true)
    else
      (match r.1 with
       | [] => [[c]]
       | f :: fs => (c :: f) :: fs, false)

/-- Model of JavaScript `split(/\s+/)`: split on maximal whitespace runs,
keeping the (possibly empty) leading and trailing fields, as
`String.prototype.split` does. -/
def jsSplitWs (s : List Char) : List (List Char) :=
  (jsSplitWsAux s).1

/-- Template record as stored in settings (id, name, content, created). -/
structure Template where
  id : Nat
  name : List Char
  content : List Char
  created : Nat
deriving DecidableEq, Repr

/-- Model of the score computation shared by
`AIPromptAutocomplete.filterAndShowPromptsWithBestMatch` (content.js lines
1676-1701) and `AIPromptAutocomplete.applyInternalFilter` (lines
1608-1633). The argument `queryLower` is the already lower-cased and
trimmed query, exactly as at those call sites. -/
def score (queryLower : List Char) (p : Template) : Nat :=
  let nameLower := jsToLower p.name
  let contentLower := jsToLower p.content
  let s1 := if nameLower = queryLower then 1000 else 0
  let s2 := if contentLower = queryLower then 500 else 0
  let s3 := if jsStartsWith nameLower queryLower then 100 else 0
  let s4 := if jsStartsWith contentLower queryLower then 50 else 0
  let s5 := if jsIncludes nameLower queryLower then 10 else 0
  let s6 := if jsIncludes contentLower queryLower then 5 else 0
  let nameWords := jsSplitWs nameLower
  let contentWords := jsSplitWs contentLower
  let s7 := if nameWords.any (fun w => jsStartsWith w queryLower) then 25 else 0
  let s8 := if contentWords.any (fun w => jsStartsWith w queryLower) then 15 else 0
  s1 + s2 + s3 + s4 + s5 + s6 + s7 + s8

/-- Insert one scored entry into a descending-sorted list, after all
entries of greater or equal score. -/
def insertDesc (x : Template × Nat) : List (Template × Nat) → List (Template × Nat)
  | [] => [x]
  | y :: ys => if y.2 ≤ x.2 then x :: y :: ys else y :: insertDesc x ys

/-- Stable descending sort by score. ECMAScript requires
`Array.prototype.sort` to be stable; with the comparator
`(a, b) => b.score - a.score` (content.js line 1706) the result is the
stable descending order, which this insertion sort computes. -/
def sortDesc : List (Template × Nat) → List (Template × Nat)
  | [] => []
  | x :: xs => insertDesc x (sortDesc xs)

/-- Model of the ranking in
`AIPromptAutocomplete.filterAndShowPromptsWithBestMatch` (content.js lines
1669-1708): lower-case and trim the query; an empty query keeps the prompt
list unchanged (a fresh copy of `settings.prompts`); otherwise score every
prompt, drop entries with score ≤ 0 and stable-sort descending by
score. -/
def rank (query : List Char) (prompts : List Template) : List Template :=
  let queryLower := jsTrim (jsToLower query)
  if queryLower = [] then prompts
  else
    let scoredPrompts :=
      (prompts.map (fun p => (p, score queryLower p))).filter (fun item => 0 < item.2)
    (sortDesc scoredPrompts).map (fun item => item.1)

theorem insertDesc_perm (x : Template × Nat) (l : List (Template × Nat)) :
    (insertDesc x l).Perm (x :: l) := by
  induction l with
  | nil => exact List.Perm.refl _
  | cons y ys ih =>
    by_cases h : y.2 ≤ x.2
    · simp only [insertDesc, h, if_pos]
      exact List.Perm.refl _
    · simp only [insertDesc, h, if_neg, if_false]
      exact (ih.cons y).trans (List.Perm.swap x y ys)

theorem sortDesc_perm (l : List (Template × Nat)) : (sortDesc l).Perm l := by
  induction l with
  | nil => exact List.Perm.refl _
  | cons x xs ih =>
    exact (insertDesc_perm x (sortDesc xs)).trans (ih.cons x)

theorem insertDesc_sorted (x : Template × Nat) (l : List (Template × Nat))
    (h : l.Pairwise (fun a b => b.2 ≤ a.2)) :
    (insertDesc x l).Pairwise (fun a b => b.2 ≤ a.2) := by
  induction l with
  | nil => simp [insertDesc]
  | cons y ys ih =>
    by_cases hy : y.2 ≤ x.2
    · simp only [insertDesc, hy, if_pos]
      refine List.Pairwise.cons ?_ h
      intro z hz
      rcases List.mem_cons.mp hz with rfl | hz'
      · exact hy
      · exact le_trans (List.rel_of_pairwise_cons h hz') hy
    · simp only [insertDesc, hy, if_neg, if_false]
      refine List.Pairwise.cons ?_ (ih (List.Pairwise.of_cons h))
      intro z hz
      rcases List.mem_cons.mp ((insertDesc_perm x ys).mem_iff.mp hz) with rfl | hz'
      · omega
      · exact List.rel_of_pairwise_cons h hz'

theorem sortDesc_sorted (l : List (Template × Nat)) :
    (sortDesc l).Pairwise (fun a b => b.2 ≤ a.2) := by
  induction l with
  | nil => simp [sortDesc]
  | cons x xs ih => exact insertDesc_sorted x (sortDesc xs) ih

theorem insertDesc_filter_pos (x : Template × Nat) (l : List (Template × Nat))
    (n : Nat) (hx : x.2 = n) :
    (insertDesc x l).filter (fun y => decide (y.2 = n)) =
      x :: l.filter (fun y => decide (y.2 = n)) := by
  induction l with
  | nil => simp [insertDesc, hx]
  | cons y ys ih =>
    by_cases hy : y.2 ≤ x.2
    · simp only [insertDesc, hy, if_pos]
      rw [List.filter_cons_of_pos (by simp [hx])]
    · simp only [insertDesc, hy, if_neg, if_false]
      have hyn : ¬ (y.2 = n) := by omega
      rw [List.filter_cons_of_neg (by simp [hyn]), ih,
        List.filter_cons_of_neg (by simp [hyn])]

theorem insertDesc_filter_neg (x : Template × Nat) (l : List (Template × Nat))
    (n : Nat) (hx : ¬ (x.2 = n)) :
    (insertDesc x l).filter (fun y => decide (y.2 = n)) =
      l.filter (fun y => decide (y.2 = n)) := by
  induction l with
  | nil => simp [insertDesc, hx]
  | cons y ys ih =>
    by_cases hy : y.2 ≤ x.2
    · simp only [insertDesc, hy, if_pos]
      rw [List.filter_cons_of_neg (by simp [hx])]
    · simp only [insertDesc, hy, if_neg, if_false]
      by_cases hyn : y.2 = n
      · rw [List.filter_cons_of_pos (by simp [hyn]), ih,
          List.filter_cons_of_pos (by simp [hyn])]
      · rw [List.filter_cons_of_neg (by simp [hyn]), ih,
          List.filter_cons_of_neg (by simp [hyn])]

theorem sortDesc_filter (l : List (Template × Nat)) (n : Nat) :
    (sortDesc l).filter (fun y => decide (y.2 = n)) =
      l.filter (fun y => decide (y.2 = n)) := by
  induction l with
  | nil => rfl
  | cons x xs ih =>
    by_cases hx : x.2 = n
    · rw [sortDesc, insertDesc_filter_pos x (sortDesc xs) n hx, ih,
        List.filter_cons_of_pos (by simp [hx])]
    · rw [sortDesc, insertDesc_filter_neg x (sortDesc xs) n hx, ih,
        List.filter_cons_of_neg (by simp [hx])]

/-- C2: the score is the sum of all applicable bonuses (name equal +1000,
content equal +500, name prefix +100, content prefix +50, name contains
+10, content contains +5, whitespace-delimited word of the name starting
with the query +25, of the content +15); a template whose name equals the
query scores at least 1000; and every template in the output of `rank` for a
non-empty query has positive score. -/
theorem score_characterization (query : List Char) (p : Template)
    (prompts : List Template) :
    (score query p =
      (if jsToLower p.name = query then 1000 else 0) +
      (if jsToLower p.content = query then 500 else 0) +
      (if query <+: jsToLower p.name then 100 else 0) +
      (if query <+: jsToLower p.content then 50 else 0) +
      (if query <:+: jsToLower p.name then 10 else 0) +
      (if query <:+: jsToLower p.content then 5 else 0) +
      (if ∃ w ∈ jsSplitWs (jsToLower p.name), query <+: w then 25 else 0) +
      (if ∃ w ∈ jsSplitWs (jsToLower p.content), query <+: w then 15 else 0)) ∧
    (jsToLower p.name = query → 1000 ≤ score query p) ∧
    (jsTrim (jsToLower query) ≠ [] → p ∈ rank query prompts →
      0 < score (jsTrim (jsToLower query)) p) := by
  have hsum : score query p =
      (if jsToLower p.name = query then 1000 else 0) +
      (if jsToLower p.content = query then 500 else 0) +
      (if query <+: jsToLower p.name then 100 else 0) +
      (if query <+: jsToLower p.content then 50 else 0) +
      (if query <:+: jsToLower p.name then 10 else 0) +
      (if query <:+: jsToLower p.content then 5 else 0) +
      (if ∃ w ∈ jsSplitWs (jsToLower p.name), query <+: w then 25 else 0) +
      (if ∃ w ∈ jsSplitWs (jsToLower p.content), query <+: w then 15 else 0) := by
    simp only [score, jsStartsWith_iff, jsIncludes_iff, List.any_eq_true]
  refine ⟨hsum, ?_, ?_⟩
  · intro hname
    rw [hsum, if_pos hname]
    omega
  · intro hne hmem
    unfold rank at hmem
    simp only [hne, if_neg, if_false] at hmem
    obtain ⟨pair, hpair, rfl⟩ := List.mem_map.mp hmem
    have hmemL := (sortDesc_perm _).mem_iff.mp hpair
    have h2 := List.mem_filter.mp hmemL
    obtain ⟨t, _, rfl⟩ := List.mem_map.mp h2.1
    simpa using h2.2

/-- Closed-form witness for the C2 score properties at a concrete
template and query. -/
theorem score_characterization_witness :
    (1000 ≤ score ("greeting".toList)
      ⟨0, "Greeting".toList, "Hello".toList, 0⟩) ∧
    (0 < score (jsTrim (jsToLower "Gre".toList))
      ⟨0, "Greeting".toList, "Hello".toList, 0⟩) :=
  ⟨(score_characterization ("greeting".toList)
      ⟨0, "Greeting".toList, "Hello".toList, 0⟩ []).2.1 (by decide),
   (score_characterization ("Gre".toList)
      ⟨0, "Greeting".toList, "Hello".toList, 0⟩
      [⟨0, "Greeting".toList, "Hello".toList, 0⟩]).2.2
      (by decide) (by decide)⟩

/-- C3: ranking with a query that is empty after trimming and case folding
returns the template list unchanged; with a non-empty query it keeps
exactly the positively scored templates, in descending score order, and
templates of equal score keep their relative input order (the output
restricted to any fixed score equals the input restricted to that
score). -/
theorem rank_characterization (query : List Char) (prompts : List Template) :
    (jsTrim (jsToLower query) = [] → rank query prompts = prompts) ∧
    (jsTrim (jsToLower query) ≠ [] →
      ((rank query prompts).Perm
        (prompts.filter
          (fun t => decide (0 < score (jsTrim (jsToLower query)) t))) ∧
       (rank query prompts).Pairwise
        (fun a b => score (jsTrim (jsToLower query)) b ≤
          score (jsTrim (jsToLower query)) a) ∧
       ∀ n : Nat,
         (rank query prompts).filter
            (fun t => decide (score (jsTrim (jsToLower query)) t = n)) =
           prompts.filter
            (fun t => decide (score (jsTrim (jsToLower query)) t = n ∧ 0 < n)))) := by
  constructor
  · intro h
    simp [rank, h]
  · intro hne
    have hrank : rank query prompts =
        (sortDesc ((prompts.map
            (fun p => (p, score (jsTrim (jsToLower query)) p))).filter
          (fun item => decide (0 < item.2)))).map (fun item => item.1) := by
      simp only [rank, hne, if_neg, if_false]
    refine ⟨?_, ?_, ?_⟩
    · rw [hrank]
      refine ((sortDesc_perm _).map _).trans ?_
      rw [List.filter_map, List.map_map]
      have hid : ((fun item : Template × Nat => item.1) ∘
          (fun p => (p, score (jsTrim (jsToLower query)) p))) = id := rfl
      rw [hid, List.map_id]
      exact List.Perm.refl _
    · rw [hrank, List.pairwise_map]
      refine (sortDesc_sorted _).imp_of_mem ?_
      intro a b ha hb hle
      have haL := (sortDesc_perm _).mem_iff.mp ha
      have hbL := (sortDesc_perm _).mem_iff.mp hb
      obtain ⟨ta, _, rfl⟩ := List.mem_map.mp (List.mem_filter.mp haL).1
      obtain ⟨tb, _, rfl⟩ := List.mem_map.mp (List.mem_filter.mp hbL).1
      simpa using hle
    · intro n
      rw [hrank, List.filter_map]
      have hcg : (sortDesc ((prompts.map
            (fun p => (p, score (jsTrim (jsToLower query)) p))).filter
          (fun item => decide (0 < item.2)))).filter
            ((fun t => decide (score (jsTrim (jsToLower query)) t = n)) ∘
              (fun item : Template × Nat => item.1)) =
          (sortDesc ((prompts.map
            (fun p => (p, score (jsTrim (jsToLower query)) p))).filter
          (fun item => decide (0 < item.2)))).filter
            (fun y => decide (y.2 = n)) := by
        apply List.filter_congr
        intro y hy
        have hyL := (sortDesc_perm _).mem_iff.mp hy
        obtain ⟨t, _, rfl⟩ := List.mem_map.mp (List.mem_filter.mp hyL).1
        rfl
      rw [hcg, sortDesc_filter, List.filter_filter, List.filter_map,
        List.map_map]
      have hid : ((fun item : Template × Nat => item.1) ∘
          (fun p => (p, score (jsTrim (jsToLower query)) p))) = id := rfl
      rw [hid, List.map_id]
      apply List.filter_congr
      intro t _
      simp only [Function.comp_apply]
      by_cases hs : score (jsTrim (jsToLower query)) t = n
      · simp [hs]
      · simp [hs]

/-- Closed-form witness for C3: non-empty-query branch applied at a
concrete query and template list. -/
theorem rank_characterization_witness :
    (rank ("gre".toList) [⟨0, "Greeting".toList, "Hello".toList, 0⟩]).Perm
      ([⟨0, "Greeting".toList, "Hello".toList, 0⟩].filter
        (fun t => decide (0 < score (jsTrim (jsToLower "gre".toList)) t))) :=
  ((rank_characterization ("gre".toList)
    [⟨0, "Greeting".toList, "Hello".toList, 0⟩]).2 (by decide)).1

/-- Keyboard event model: the fields of a DOM keyboard event read by
`EventManager.matchesHotkey`. -/
structure KeyEvent where
  key : List Char
  ctrlKey : Bool
  shiftKey : Bool
  altKey : Bool
  metaKey : Bool
deriving DecidableEq, Repr

/-- Synonym normalization of one hotkey token (content.js lines 681-688):
`mod` resolves to meta on macOS-like platforms and ctrl elsewhere;
`cmd`/`command` to meta, `control` to ctrl, `option` to alt. -/
def mapToken (isMac : Bool) (t : List Char) : List Char :=
  if t = "mod".toList then (if isMac then "meta".toList else "ctrl".toList)
  else if t = "cmd".toList then "meta".toList
  else if t = "command".toList then "meta".toList
  else if t = "control".toList then "ctrl".toList
  else if t = "option".toList then "alt".toList
  else t

/-- Model of `EventManager.matchesHotkey` (content.js lines 670-716). The
platform test `isMac` is passed as a parameter. Tokens are trimmed and
lower-cased, synonyms mapped, the last token is the main key and the rest
are required modifiers; the event matches when the main key agrees and
either the four modifier flags equal the required set exactly or the
macOS ctrl/meta compatibility case applies. -/
def matchesHotkey (isMac : Bool) (ev : KeyEvent) (hotkey : List Char) : Bool :=
  if hotkey.isEmpty then false
  else
    let rawTokens := (hotkey.splitOn '+').map (fun s => jsToLower (jsTrim s))
    let mappedTokens := rawTokens.map (mapToken isMac)
    let modifiers := mappedTokens.dropLast
    let mainKey := mappedTokens.getLastD []
    let eventKey := jsToLower ev.key
    let requireCtrl := modifiers.contains ("ctrl".toList)
    let requireShift := modifiers.contains ("shift".toList)
    let requireAlt := modifiers.contains ("alt".toList)
    let requireMeta := modifiers.contains ("meta".toList)
    let hasOnlyRequiredModifiers :=
      (ev.ctrlKey == requireCtrl) && (ev.shiftKey == requireShift) &&
      (ev.altKey == requireAlt) && (ev.metaKey == requireMeta)
    let mainKeyMatches := eventKey == mainKey
    let ctrlMetaCompat :=
      isMac && requireCtrl && !requireMeta && ev.metaKey && !ev.ctrlKey
    mainKeyMatches && (hasOnlyRequiredModifiers || ctrlMetaCompat)

/-- Specification-side restatement of the hotkey rule: the event matches
iff its main key equals the main key of the spec and its modifier flags equal
exactly the set required by the synonym-normalized modifier tokens, with
the single exception that on a macOS-like platform a spec requiring ctrl
(and not meta) also matches an event carrying meta but not ctrl. -/
def HotkeySpecMatches (isMac : Bool) (ev : KeyEvent) (hotkey : List Char) : Prop :=
  let tokens := (hotkey.splitOn '+').map
    (fun s => mapToken isMac (jsToLower (jsTrim s)))
  let modifiers := tokens.dropLast
  let mainKey := tokens.getLastD []
  jsToLower ev.key = mainKey ∧
  (((ev.ctrlKey = true ↔ "ctrl".toList ∈ modifiers) ∧
    (ev.shiftKey = true ↔ "shift".toList ∈ modifiers) ∧
    (ev.altKey = true ↔ "alt".toList ∈ modifiers) ∧
    (ev.metaKey = true ↔ "meta".toList ∈ modifiers)) ∨
   (isMac = true ∧ "ctrl".toList ∈ modifiers ∧ "meta".toList ∉ modifiers ∧
    ev.metaKey = true ∧ ev.ctrlKey = false))

set_option maxHeartbeats 1000000 in
/-- C5: for every keyboard event and non-empty hotkey spec,
`matchesHotkey` returns true exactly under the specification-side rule
`HotkeySpecMatches` (main key equal and modifier flags exactly the
normalized required set, with the macOS ctrl-for-meta exception). -/
theorem matchesHotkey_spec (isMac : Bool) (ev : KeyEvent) (hotkey : List Char)
    (h : hotkey ≠ []) :
    (matchesHotkey isMac ev hotkey = true ↔ HotkeySpecMatches isMac ev hotkey) := by
  have he : hotkey.isEmpty = false := by
    cases hotkey with
    | nil => exact absurd rfl h
    | cons a l => rfl
  have hbd : ∀ (b : Bool) (p : Prop) [Decidable p],
      (b = decide p) ↔ (b = true ↔ p) := by
    intro b p hp
    cases b <;> simp
  unfold matchesHotkey HotkeySpecMatches
  simp only [he, Bool.false_eq_true, if_false, List.map_map, Function.comp_def,
    Bool.and_eq_true, Bool.or_eq_true, beq_iff_eq, Bool.not_eq_true',
    List.elem_eq_mem, hbd, decide_eq_true_eq,
    decide_eq_false_iff_not]
  tauto

/-- Closed-form witness for C5: on a macOS-like platform the spec
Ctrl+P matches an event with meta held and ctrl not held. -/
theorem matchesHotkey_spec_witness :
    (matchesHotkey true ⟨"p".toList, false, false, false, true⟩
        ("Ctrl+P".toList) = true ↔
      HotkeySpecMatches true ⟨"p".toList, false, false, false, true⟩
        ("Ctrl+P".toList)) :=
  matchesHotkey_spec true ⟨"p".toList, false, false, false, true⟩
    ("Ctrl+P".toList) (by decide)

/-- Trigger kind of an active dropdown session
(`dropdownModeType` in content.js). -/
inductive DropdownModeType
  | hotkey
  | textTrigger
deriving DecidableEq, Repr

/-- Model of the value-based replacement branch of
`AIPromptAutocomplete.insertPrompt` for INPUT/TEXTAREA surfaces
(content.js lines 2442-2468), while in dropdown mode with
`dropdownModeStartPosition ≥ 0` and `dropdownModeLastCursorPos ≥ 0`.
Returns the new surface text and the new cursor offset. The JS guard
`this.settings?.textTrigger` (a falsy empty trigger selects the plain
branch) is modelled by the `0 < triggerLen` conjunct. -/
def insertReplaceValue (value : List Char) (modeType : DropdownModeType)
    (triggerLen startPos lastCursorPos : Nat) (content : List Char) :
    List Char × Nat :=
  let cursorPos := min lastCursorPos value.length
  if modeType = DropdownModeType.textTrigger ∧ 0 < triggerLen then
    let triggerStart := startPos - triggerLen
    (value.take triggerStart ++ content ++ value.drop cursorPos,
     triggerStart + content.length)
  else
    (value.take startPos ++ content ++ value.drop cursorPos,
     (value.take startPos).length + content.length)

/-- Model of the contenteditable branch of
`AIPromptAutocomplete.insertPrompt` (content.js lines 2346-2401), under
the same session conditions: the selection `[start, end)` is computed
with clamping, its contents deleted, and the content inserted at the
collapsed caret. -/
def insertReplaceCE (value : List Char) (modeType : DropdownModeType)
    (triggerLen startPos lastCursorPos : Nat) (content : List Char) :
    List Char × Nat :=
  let start0 :=
    if modeType = DropdownModeType.textTrigger ∧ 0 < triggerLen then
      startPos - triggerLen
    else startPos
  let start := min start0 value.length
  let stop := max start (min lastCursorPos value.length)
  (value.take start ++ content ++ value.drop stop, start + content.length)

/-- Replacement start of a completed insertion, as the specification
states it: the session start offset, minus the trigger length for
text-trigger sessions. -/
def replaceStartOf (modeType : DropdownModeType) (startPos triggerLen : Nat) :
    Nat :=
  match modeType with
  | DropdownModeType.textTrigger => startPos - triggerLen
  | DropdownModeType.hotkey => startPos

/-- C4: under the session invariant (non-empty trigger no longer than the
start offset for text-trigger sessions, start offset at most the last
cursor offset, cursor within the text), both insertion paths replace
exactly the span `[replaceStart, lastCursorOffset]` of the surface text
with the content in one text replacement, and place the cursor
immediately after the inserted text. -/
theorem insertPrompt_replacement_span (value content : List Char)
    (modeType : DropdownModeType) (triggerLen startPos lastCursorPos : Nat)
    (hts : modeType = DropdownModeType.textTrigger →
      0 < triggerLen ∧ triggerLen ≤ startPos)
    (hsc : startPos ≤ lastCursorPos) (hcl : lastCursorPos ≤ value.length) :
    insertReplaceValue value modeType triggerLen startPos lastCursorPos content =
      (value.take (replaceStartOf modeType startPos triggerLen) ++ content ++
        value.drop lastCursorPos,
       replaceStartOf modeType startPos triggerLen + content.length) ∧
    insertReplaceCE value modeType triggerLen startPos lastCursorPos content =
      (value.take (replaceStartOf modeType startPos triggerLen) ++ content ++
        value.drop lastCursorPos,
       replaceStartOf modeType startPos triggerLen + content.length) := by
  cases modeType with
  | textTrigger =>
    obtain ⟨htp, htl⟩ := hts rfl
    refine ⟨?_, ?_⟩
    · simp [insertReplaceValue, replaceStartOf, htp, Nat.min_eq_left hcl]
    · simp [insertReplaceCE, replaceStartOf, htp,
        Nat.min_eq_left (show startPos - triggerLen ≤ value.length by omega),
        Nat.min_eq_left hcl,
        Nat.max_eq_right (show startPos - triggerLen ≤ lastCursorPos by omega)]
  | hotkey =>
    refine ⟨?_, ?_⟩
    · simp [insertReplaceValue, replaceStartOf, List.length_take,
        Nat.min_eq_left hcl, Nat.min_eq_left (le_trans hsc hcl)]
    · simp [insertReplaceCE, replaceStartOf, Nat.min_eq_left hcl,
        Nat.min_eq_left (le_trans hsc hcl), Nat.max_eq_right hsc]

/-- Closed-form witness for C4: the scenario where the field holds
`AI:Gre`, the session is a text-trigger session with trigger length 3 and
start offset 3, and `Hello World!` is inserted. -/
theorem insertPrompt_replacement_span_witness :
    insertReplaceValue ("AI:Gre".toList) DropdownModeType.textTrigger 3 3 6
        ("Hello World!".toList) =
      (("AI:Gre".toList).take
          (replaceStartOf DropdownModeType.textTrigger 3 3) ++
        "Hello World!".toList ++ ("AI:Gre".toList).drop 6,
       replaceStartOf DropdownModeType.textTrigger 3 3 +
        ("Hello World!".toList).length) :=
  (insertPrompt_replacement_span ("AI:Gre".toList) ("Hello World!".toList)
    DropdownModeType.textTrigger 3 3 6
    (fun _ => by decide) (by decide) (by decide)).1

/-- Placeholder delimiter form (bracket or brace in the source). -/
inductive PhForm
  | bracket
  | brace
deriving DecidableEq, Repr

/-- Placeholder record: trimmed name, default value, delimiter form. The
source also stores the raw matched text (`fullMatch`), which no later
code path reads; it is omitted here. -/
structure Placeholder where
  name : List Char
  defaultValue : List Char
  phForm : PhForm
deriving DecidableEq, Repr

/-- Parse a placeholder body at the head of `rest`, which follows an
opening delimiter: a non-empty run of characters other than ':' and the
closing delimiter, then an optional ':' default (characters other than
the closing delimiter), then the closing delimiter. Returns the raw name,
the default value and the remainder on success. This is the (greedy,
backtracking-free) semantics of the source regexes
\[([^:\]]+)(?::([^\]]*))?\] and \{([^:\}]+)(?::([^\}]*))?\}. -/
def parsePhBody (close : Char) (rest : List Char) :
    Option (List Char × List Char × List Char) :=
  let name := rest.takeWhile (fun c => decide (c ≠ ':' ∧ c ≠ close))
  if name.isEmpty then none
  else
    match rest.drop name.length with
    | [] => none
    | c :: r =>
      if c = close then some (name, [], r)
      else if c = ':' then
        let dflt := r.takeWhile (fun c => decide (c ≠ close))
        match r.drop dflt.length with
        | [] => none
        | c2 :: r2 => if c2 = close then some (name, dflt, r2) else none
      else none

/-- Fuel-driven scan for all matches of one placeholder regex, left to
right, resuming after each match (the `g`-flag `exec` loop in
`extractPlaceholders`, content.js lines 2195-2221). Each step consumes at
least one character, so fuel `length + 1` computes the full scan. -/
def scanPlaceholdersAux (opn close : Char) (form : PhForm) :
    Nat → List Char → List Placeholder
  | 0, _ => []
  | _ + 1, [] => []
  | fuel + 1, c :: rest =>
    if c = opn then
      match parsePhBody close rest with
      | some (name, dflt, r) =>
        ⟨jsTrim name, dflt, form⟩ :: scanPlaceholdersAux opn close form fuel r
      | none => scanPlaceholdersAux opn close form fuel rest
    else scanPlaceholdersAux opn close form fuel rest

/-- All matches of one placeholder form in text order. -/
def scanPlaceholders (opn close : Char) (form : PhForm) (s : List Char) :
    List Placeholder :=
  scanPlaceholdersAux opn close form (s.length + 1) s

/-- Keep the first entry with each name, skipping names already in
`seen`: the shared `seen`-set logic of `extractPlaceholders`. -/
def dedupByName (seen : List (List Char)) : List Placeholder → List Placeholder
  | [] => []
  | p :: ps =>
    if p.name ∈ seen then dedupByName seen ps
    else p :: dedupByName (p.name :: seen) ps

/-- Model of `AIPromptAutocomplete.extractPlaceholders` (content.js lines
2190-2224): scan all bracket-form matches first, then all brace-form
matches, with a single `seen` set shared between the two loops. -/
def extractPlaceholders (content : List Char) : List Placeholder :=
  dedupByName []
    (scanPlaceholders '[' ']' PhForm.bracket content ++
     scanPlaceholders '{' '}' PhForm.brace content)

theorem dedupByName_nodup (l : List Placeholder) (seen : List (List Char)) :
    ((dedupByName seen l).map (fun p => p.name)).Nodup ∧
    ∀ p ∈ dedupByName seen l, p.name ∉ seen := by
  induction l generalizing seen with
  | nil => exact ⟨List.nodup_nil, by simp [dedupByName]⟩
  | cons p ps ih =>
    by_cases h : p.name ∈ seen
    · simp only [dedupByName, h, if_pos]
      exact (ih seen)
    · simp only [dedupByName, h, if_neg, if_false]
      obtain ⟨ihn, ihs⟩ := ih (p.name :: seen)
      refine ⟨?_, ?_⟩
      · simp only [List.map_cons, List.nodup_cons]
        refine ⟨?_, ihn⟩
        intro hc
        obtain ⟨q, hq, hqn⟩ := List.mem_map.mp hc
        exact (ihs q hq) (hqn ▸ List.mem_cons_self _ _)
      · intro q hq
        rcases List.mem_cons.mp hq with rfl | hq'
        · exact h
        · intro hc
          exact (ihs q hq') (List.mem_cons_of_mem _ hc)

theorem dedupByName_find (l : List Placeholder) (seen : List (List Char))
    (n : List Char) (hn : n ∉ seen) :
    (dedupByName seen l).find? (fun p => p.name == n) =
      l.find? (fun p => p.name == n) := by
  induction l generalizing seen with
  | nil => rfl
  | cons p ps ih =>
    by_cases h : p.name ∈ seen
    · simp only [dedupByName, h, if_pos]
      have hne : ¬ (p.name == n) = true := by
        simp only [beq_iff_eq]
        intro hc
        exact hn (hc ▸ h)
      rw [ih seen hn, List.find?_cons_of_neg ps hne]
    · simp only [dedupByName, h, if_neg, if_false]
      by_cases he : (p.name == n) = true
      · rw [List.find?_cons_of_pos (dedupByName (p.name :: seen) ps) he,
          List.find?_cons_of_pos ps he]
      · rw [List.find?_cons_of_neg (dedupByName (p.name :: seen) ps) he,
          List.find?_cons_of_neg ps he]
        apply ih
        intro hc
        rcases List.mem_cons.mp hc with rfl | hc'
        · exact he (beq_iff_eq.mpr rfl)
        · exact hn hc'

/-- C6 counterexample: in `{x:a} [x:b]` the brace occurrence of `x` comes
first in text order (at offset 0), but `extractPlaceholders` records the
bracket form with default `b`, not the brace form with default `a` — the
source scans all bracket matches before any brace match. -/
theorem extractPlaceholders_first_in_text_counterexample :
    extractPlaceholders ("\x7bx:a\x7d [x:b]".toList) =
      [⟨"x".toList, "b".toList, PhForm.bracket⟩] ∧
    OccursAt ("\x7bx:a\x7d [x:b]".toList) ("\x7bx:a\x7d".toList) 0 ∧
    extractPlaceholders ("\x7bx:a\x7d [x:b]".toList) ≠
      [⟨"x".toList, "a".toList, PhForm.brace⟩] := by
  refine ⟨by decide, by decide, by decide⟩

/-- C6 (amended): `extractPlaceholders` yields at most one placeholder
per name; it scans all bracket-form occurrences left to right and then
all brace-form occurrences left to right, and the first occurrence of a
name in that scan order (bracket form taking precedence over brace form)
determines the recorded entry, all later occurrences of the name being
ignored regardless of form. -/
theorem extractPlaceholders_dedup (content : List Char) :
    ((extractPlaceholders content).map (fun p => p.name)).Nodup ∧
    ∀ n : List Char,
      (extractPlaceholders content).find? (fun p => p.name == n) =
        (scanPlaceholders '[' ']' PhForm.bracket content ++
          scanPlaceholders '{' '}' PhForm.brace content).find?
          (fun p => p.name == n) := by
  refine ⟨(dedupByName_nodup _ []).1, ?_⟩
  intro n
  exact dedupByName_find _ [] n (by simp)

/-- Settings record read by the content script. -/
structure Settings where
  hotkey : List Char
  textTrigger : List Char
  prompts : List Template
deriving DecidableEq, Repr

/-- The session fields of `AIPromptAutocomplete` mutated by the dropdown
state machine (content.js constructor). Offsets are integers because the
source uses -1 as the reset value. The 3-second auto-hide timer armed by
`showNoPromptsMessage` is modelled by the flag `autoHideArmed`. -/
structure EngineState where
  isInDropdownMode : Bool
  dropdownModeType : Option DropdownModeType
  dropdownModeStartPosition : Int
  dropdownModeLastCursorPos : Int
  filterValue : List Char
  filteredPrompts : List Template
  selectedIndex : Int
  isDropdownVisible : Bool
  autoHideArmed : Bool
deriving DecidableEq, Repr

/-- Model of JavaScript `String.prototype.substring`: clamp both indices
to `[0, length]` and swap them when start exceeds end. -/
def jsSubstring (s : List Char) (a b : Int) : List Char :=
  let n : Int := (s.length : Int)
  let a2 := min (max a 0) n
  let b2 := min (max b 0) n
  let lo := min a2 b2
  let hi := max a2 b2
  (s.take hi.toNat).drop lo.toNat

/-- Model of `AIPromptAutocomplete.resetDropdownMode` (content.js lines
1446-1456) together with the `hideDropdown` it calls: the session is
destroyed and the dropdown removed. -/
def resetDropdownMode (s : EngineState) : EngineState :=
  { s with
    isInDropdownMode := false
    dropdownModeType := none
    dropdownModeStartPosition := -1
    dropdownModeLastCursorPos := -1
    filteredPrompts := []
    isDropdownVisible := false
    selectedIndex := -1 }

/-- Model of `AIPromptAutocomplete.showNoPromptsMessage` (content.js
lines 2674-2710): a no-op unless already in dropdown mode; otherwise the
empty-state indicator is rendered and the auto-hide timer armed. -/
def showNoPromptsMessage (s : EngineState) : EngineState :=
  if s.isInDropdownMode = false then s
  else { s with isDropdownVisible := true, autoHideArmed := true }

/-- Model of `AIPromptAutocomplete.showNoMatchesMessage` (content.js
lines 2712-2739). -/
def showNoMatchesMessage (s : EngineState) : EngineState :=
  if s.isInDropdownMode = false then s
  else { s with isDropdownVisible := true }

/-- Model of `AIPromptAutocomplete.filterAndShowPromptsWithBestMatch`
(content.js lines 1651-1735) at the state level; the scoring and sorting
block is the `rank` function defined above. -/
def filterAndShowPrompts (settings : Settings) (s : EngineState)
    (query : List Char) : EngineState :=
  if s.isInDropdownMode = false then s
  else if settings.prompts = [] then showNoPromptsMessage s
  else
    let s1 := { s with
      filterValue := []
      filteredPrompts := rank query settings.prompts }
    if s1.filteredPrompts = [] ∧ jsTrim (jsToLower query) ≠ [] then
      showNoMatchesMessage s1
    else
      let s2 := { s1 with isDropdownVisible := true }
      if s2.filteredPrompts ≠ [] then { s2 with selectedIndex := 0 } else s2

/-- Model of `AIPromptAutocomplete.handleDropdownModeInput` (content.js
lines 1414-1444): record the new cursor, abort when the cursor moved
before the session start, abort a text-trigger session whose trigger
text no longer matches verbatim, otherwise re-filter from the text
between the start position and the cursor. -/
def handleDropdownModeInput (settings : Settings) (s : EngineState)
    (value : List Char) (cursorPos : Nat) : EngineState :=
  let s0 := { s with dropdownModeLastCursorPos := (cursorPos : Int) }
  if (cursorPos : Int) < s0.dropdownModeStartPosition then resetDropdownMode s0
  else if s0.dropdownModeType = some DropdownModeType.textTrigger ∧
      jsSubstring value
        (s0.dropdownModeStartPosition - (settings.textTrigger.length : Int))
        s0.dropdownModeStartPosition ≠ settings.textTrigger then
    resetDropdownMode s0
  else
    filterAndShowPrompts settings s0
      (jsSubstring value s0.dropdownModeStartPosition (cursorPos : Int))

/-- Model of `AIPromptAutocomplete.activateDropdownMode` (content.js
lines 1380-1412). All three activation entry points (the in-page hotkey
handler at line 1251, the external show request at line 1008 and the
text-trigger detector at line 1374) call this function while no session
is active. -/
def activateDropdownMode (settings : Settings) (s : EngineState)
    (ty : DropdownModeType) (startPosition : Int)
    (value : List Char) (cursorPos : Nat) : EngineState :=
  if settings.prompts = [] then showNoPromptsMessage s
  else
    let s1 := { s with isInDropdownMode := true, dropdownModeType := some ty }
    match ty with
    | DropdownModeType.hotkey =>
      let beforeCursor := value.take cursorPos
      let lastSpaceIndex : Int :=
        match lastIndexOf beforeCursor [' '] with
        | some i => (i : Int)
        | none => -1
      let s2 := { s1 with
        dropdownModeLastCursorPos := (cursorPos : Int)
        dropdownModeStartPosition := lastSpaceIndex + 1 }
      filterAndShowPrompts settings s2 []
    | DropdownModeType.textTrigger =>
      let s2 := { s1 with dropdownModeStartPosition :=
        startPosition + (settings.textTrigger.length : Int) }
      let s3 := { s2 with dropdownModeLastCursorPos := (cursorPos : Int) }
      let afterTrigger :=
        jsSubstring value s3.dropdownModeStartPosition (cursorPos : Int)
      filterAndShowPrompts settings s3 afterTrigger

theorem filterAndShowPrompts_session_fields (settings : Settings)
    (s : EngineState) (query : List Char) :
    (filterAndShowPrompts settings s query).isInDropdownMode =
      s.isInDropdownMode ∧
    (filterAndShowPrompts settings s query).dropdownModeStartPosition =
      s.dropdownModeStartPosition ∧
    (filterAndShowPrompts settings s query).dropdownModeLastCursorPos =
      s.dropdownModeLastCursorPos := by
  unfold filterAndShowPrompts showNoPromptsMessage showNoMatchesMessage
  by_cases h1 : s.isInDropdownMode = false
  · simp [h1]
  · by_cases h2 : settings.prompts = []
    · simp [h1, h2]
    · by_cases h3 : rank query settings.prompts = [] ∧
          jsTrim (jsToLower query) ≠ []
      · simp [h1, h2, h3]
      · by_cases h4 : rank query settings.prompts ≠ []
        · simp [h1, h2, h3, h4]
        · simp [h1, h2, h3, h4]

theorem filterAndShowPrompts_ranked (settings : Settings) (s : EngineState)
    (query : List Char) (hm : s.isInDropdownMode = true)
    (hp : settings.prompts ≠ []) :
    (filterAndShowPrompts settings s query).filteredPrompts =
      rank query settings.prompts := by
  unfold filterAndShowPrompts showNoMatchesMessage
  have h1 : ¬ s.isInDropdownMode = false := by simp [hm]
  by_cases h3 : rank query settings.prompts = [] ∧
      jsTrim (jsToLower query) ≠ []
  · simp [h1, hp, h3, hm]
  · by_cases h4 : rank query settings.prompts ≠ []
    · simp [h1, hp, h3, h4]
    · simp [h1, hp, h3, h4]

set_option maxHeartbeats 1000000 in
/-- C8: a text-surface mutation handled while a session is active (with a
non-empty template library, as required to have created the session)
preserves the invariant that an active session has
`0 ≤ startOffset ≤ lastCursorOffset`; a cursor before the start offset
aborts the session to Idle with the dropdown removed; a text-trigger
session whose trigger text immediately preceding the start offset no
longer matches the configured trigger verbatim aborts likewise; in all
other cases the session stays active with the last cursor offset
recorded and the list re-ranked from the recomputed filter text. -/
theorem handleDropdownModeInput_invariant (settings : Settings)
    (s : EngineState) (value : List Char) (cursorPos : Nat)
    (hmode : s.isInDropdownMode = true)
    (hstart : 0 ≤ s.dropdownModeStartPosition)
    (hprompts : settings.prompts ≠ []) :
    ((handleDropdownModeInput settings s value cursorPos).isInDropdownMode =
        true →
      0 ≤ (handleDropdownModeInput settings s value
            cursorPos).dropdownModeStartPosition ∧
      (handleDropdownModeInput settings s value
          cursorPos).dropdownModeStartPosition ≤
        (handleDropdownModeInput settings s value
          cursorPos).dropdownModeLastCursorPos) ∧
    ((cursorPos : Int) < s.dropdownModeStartPosition →
      (handleDropdownModeInput settings s value cursorPos).isInDropdownMode =
        false ∧
      (handleDropdownModeInput settings s value cursorPos).isDropdownVisible =
        false) ∧
    (s.dropdownModeType = some DropdownModeType.textTrigger →
      jsSubstring value
          (s.dropdownModeStartPosition - (settings.textTrigger.length : Int))
          s.dropdownModeStartPosition ≠ settings.textTrigger →
      (handleDropdownModeInput settings s value cursorPos).isInDropdownMode =
        false ∧
      (handleDropdownModeInput settings s value cursorPos).isDropdownVisible =
        false) ∧
    (¬ (cursorPos : Int) < s.dropdownModeStartPosition →
      (s.dropdownModeType = some DropdownModeType.textTrigger →
        jsSubstring value
            (s.dropdownModeStartPosition - (settings.textTrigger.length : Int))
            s.dropdownModeStartPosition = settings.textTrigger) →
      (handleDropdownModeInput settings s value cursorPos).isInDropdownMode =
        true ∧
      (handleDropdownModeInput settings s value
          cursorPos).dropdownModeLastCursorPos = (cursorPos : Int) ∧
      (handleDropdownModeInput settings s value cursorPos).filteredPrompts =
        rank (jsSubstring value s.dropdownModeStartPosition (cursorPos : Int))
          settings.prompts) := by
  by_cases hc : (cursorPos : Int) < s.dropdownModeStartPosition
  · have hred : handleDropdownModeInput settings s value cursorPos =
        resetDropdownMode
          { s with dropdownModeLastCursorPos := (cursorPos : Int) } := by
      unfold handleDropdownModeInput
      simp [hc]
    rw [hred]
    refine ⟨?_, ?_, ?_, ?_⟩
    · intro hcontra
      simp [resetDropdownMode] at hcontra
    · intro _
      simp [resetDropdownMode]
    · intro _ _
      simp [resetDropdownMode]
    · intro hnc
      exact absurd hc hnc
  · by_cases ht : s.dropdownModeType = some DropdownModeType.textTrigger ∧
        jsSubstring value
          (s.dropdownModeStartPosition - (settings.textTrigger.length : Int))
          s.dropdownModeStartPosition ≠ settings.textTrigger
    · have hred : handleDropdownModeInput settings s value cursorPos =
          resetDropdownMode
            { s with dropdownModeLastCursorPos := (cursorPos : Int) } := by
        unfold handleDropdownModeInput
        rw [if_neg (by simpa using hc), if_pos (by simpa using ht)]
      rw [hred]
      refine ⟨?_, ?_, ?_, ?_⟩
      · intro hcontra
        simp [resetDropdownMode] at hcontra
      · intro _
        simp [resetDropdownMode]
      · intro _ _
        simp [resetDropdownMode]
      · intro _ htrig
        exact absurd (htrig ht.1) ht.2
    · have hred : handleDropdownModeInput settings s value cursorPos =
          filterAndShowPrompts settings
            { s with dropdownModeLastCursorPos := (cursorPos : Int) }
            (jsSubstring value s.dropdownModeStartPosition (cursorPos : Int)) := by
        unfold handleDropdownModeInput
        rw [if_neg (by simpa using hc), if_neg (by simpa using ht)]
      rw [hred]
      obtain ⟨hf1, hf2, hf3⟩ := filterAndShowPrompts_session_fields settings
        { s with dropdownModeLastCursorPos := (cursorPos : Int) }
        (jsSubstring value s.dropdownModeStartPosition (cursorPos : Int))
      refine ⟨?_, ?_, ?_, ?_⟩
      · intro _
        rw [hf2, hf3]
        constructor
        · simpa using hstart
        · simp only []
          omega
      · intro hcontra
        exact absurd hcontra hc
      · intro h1 h2
        exact absurd ⟨h1, h2⟩ ht
      · intro _ _
        refine ⟨?_, ?_, ?_⟩
        · rw [hf1]
          simpa using hmode
        · rw [hf3]
        · exact filterAndShowPrompts_ranked settings _ _ (by simpa using hmode)
            hprompts

/-- Closed-form witness for C8: scenario E of the specification — while
filtering with start offset 5, the cursor moves to offset 3 and the
session aborts with the dropdown removed. -/
theorem handleDropdownModeInput_invariant_witness :
    (handleDropdownModeInput ⟨[], "AI:".toList,
        [⟨0, "Greeting".toList, "Hello".toList, 0⟩]⟩
      ⟨true, some DropdownModeType.hotkey, 5, 6, [],
        [⟨0, "Greeting".toList, "Hello".toList, 0⟩], 0, true, false⟩
      ("hello".toList) 3).isInDropdownMode = false ∧
    (handleDropdownModeInput ⟨[], "AI:".toList,
        [⟨0, "Greeting".toList, "Hello".toList, 0⟩]⟩
      ⟨true, some DropdownModeType.hotkey, 5, 6, [],
        [⟨0, "Greeting".toList, "Hello".toList, 0⟩], 0, true, false⟩
      ("hello".toList) 3).isDropdownVisible = false :=
  (handleDropdownModeInput_invariant ⟨[], "AI:".toList,
      [⟨0, "Greeting".toList, "Hello".toList, 0⟩]⟩
    ⟨true, some DropdownModeType.hotkey, 5, 6, [],
      [⟨0, "Greeting".toList, "Hello".toList, 0⟩], 0, true, false⟩
    ("hello".toList) 3 (by decide) (by decide) (by decide)).2.1 (by decide)

/-- C9: an activation attempt made while the template library is empty
and no session is active leaves the engine state entirely unchanged — no
session is created, but (contrary to the specification) no empty-state
indicator is shown and no auto-hide timer is armed, because
`showNoPromptsMessage` returns early when `isInDropdownMode` is still
false, which it always is on this path since `activateDropdownMode`
checks the library before setting `isInDropdownMode`. -/
theorem emptyLibrary_activation_noop (settings : Settings) (s : EngineState)
    (ty : DropdownModeType) (startPosition : Int) (value : List Char)
    (cursorPos : Nat) (hp : settings.prompts = [])
    (hidle : s.isInDropdownMode = false) :
    activateDropdownMode settings s ty startPosition value cursorPos = s := by
  unfold activateDropdownMode showNoPromptsMessage
  simp [hp, hidle]

/-- Closed-form witness for C9: typing the text trigger in an idle engine
with an empty library changes nothing. -/
theorem emptyLibrary_activation_noop_witness :
    activateDropdownMode ⟨[], "AI:".toList, []⟩
        ⟨false, none, -1, -1, [], [], -1, false, false⟩
        DropdownModeType.textTrigger 0 ("AI:".toList) 3 =
      ⟨false, none, -1, -1, [], [], -1, false, false⟩ :=
  emptyLibrary_activation_noop ⟨[], "AI:".toList, []⟩
    ⟨false, none, -1, -1, [], [], -1, false, false⟩
    DropdownModeType.textTrigger 0 ("AI:".toList) 3 (by decide) (by decide)

end PromptSensei
